import Mathlib

/-!
Verification of the `upcata` update tool (src/upcata.py) against its
natural-language specification.

The embedding models the release-transition workflow of `_main` as pure
functions over an explicit filesystem state.  Strings are represented as
`List Char` (`Str`).  The filesystem is a flat map from normalized paths
to nodes (`FS`); the working directory of the process is the installation
root, so `os.path.realpath`/`os.path.abspath` of the relative paths the
program uses amount to stripping a leading "./" (`normp`) — none of the
path components the program traverses is itself a symlink in the modelled
layouts.  Network input (the release listing, the HTTP status and body of
the asset download), the parsed archive contents and the formatted UTC
timestamp `arrow.get().format('YYYYMMDD-HHMMSS')` are inputs of the model
(`Env`).  Logging and console printing are side effects with no bearing on
state or exit codes and are not modelled.
-/

/-- Characters of a Python string. -/
abbrev Str := List Char

/-- A filesystem node: a regular file with its bytes, a directory, or a
symbolic link storing its (unresolved) target string. -/
inductive FNode where
  | file (content : Str)
  | dir
  | symlink (target : Str)
deriving DecidableEq

/-- Flat filesystem: map from normalized root-relative paths to nodes. -/
def FS := Str → Option FNode

/-- Create or overwrite the node at a path (models `open(..,'wb')`,
`os.symlink`, `os.makedirs` leaves, extraction of one member). -/
def FS.set (fs : FS) (p : Str) (n : FNode) : FS :=
  fun q => if q = p then some n else fs q

/-- Remove the node at a path if present (models `os.unlink`; the source
catches and ignores its failure, so removal of a missing path is a no-op). -/
def FS.del (fs : FS) (p : Str) : FS :=
  fun q => if q = p then none else fs q

/-- Node-present test: the `EEXIST` behavior of `os.mkdir`, `os.symlink`
and `os.makedirs`' leaf, which fail when any node — a dangling symlink
included — occupies the path (these syscalls do not follow the final
component). -/
def FS.exists? (fs : FS) (p : Str) : Bool :=
  (fs p).isSome

/-- Model of `os.path.realpath`/`os.path.abspath` relative to the
installation root: strip a leading "./". -/
def normp : Str → Str
  | '.' :: '/' :: r => r
  | s => s

/-- Model of `os.path.exists` and of the success of `os.stat`, both of
which follow a symlink in the final component: a missing node or a
dangling symlink yields `false`. One level of indirection is resolved;
chains of two or more symlinks do not occur in the modelled layouts. -/
def FS.live (fs : FS) (p : Str) : Bool :=
  match fs p with
  | none => false
  | some (FNode.symlink t) => (fs (normp t)).isSome
  | some _ => true

/-- Model of `os.path.join` for the shapes occurring in the source. -/
def joinp (a b : Str) : Str :=
  if a = [] then b
  else if a.getLast? = some '/' then a ++ b
  else a ++ '/' :: b

/-- Drop an exact prefix, returning the remainder. -/
def dropPfx : Str → Str → Option Str
  | [], s => some s
  | _ :: _, [] => none
  | p :: ps, c :: cs => if c = p then dropPfx ps cs else none

/-- Path separator as a one-character string. -/
def sl : Str := "/".data

/-- The literal `'./'` used as default `save_prefix`/extraction prefix. -/
def dotSlash : Str := "./".data

/-- Module constant `CURRENT_LINK = './current'`. -/
def CURRENT_LINK : Str := "./current".data

/-- Module constant `USERDATA_DIR = './userdata'`. -/
def USERDATA_DIR : Str := "./userdata".data

/-- Normalized location of the `current` symlink. -/
def curKey : Str := normp CURRENT_LINK

/-- Normalized location of the userdata root. -/
def udRoot : Str := normp USERDATA_DIR

/-- The entry name `save`. -/
def sSave : Str := "save".data

/-- The entry name `config`. -/
def sConfig : Str := "config".data

/-- The entry name `sound`. -/
def sSound : Str := "sound".data

/-- Normalized path of a userdata subdirectory,
`os.path.realpath(os.path.join(USERDATA_DIR, s))`. -/
def udPath (s : Str) : Str := normp (joinp USERDATA_DIR s)

/-- Case-insensitive character comparison used by `re.I`. -/
def dropPfxCI : Str → Str → Option Str
  | [], s => some s
  | _ :: _, [] => none
  | p :: ps, c :: cs => if c.toLower = p.toLower then dropPfxCI ps cs else none

/-- Characters admitted by the version group `[0-9A-Z\.]` under `re.I`. -/
def isVerChar (c : Char) : Bool := c.isAlphanum || c == '.'

/-- The literal part `cataclysmdda-` of the symlink-name pattern. -/
def PRODPAT : Str := "cataclysmdda-".data

/-- Model of
`re.match(r'^cataclysmdda-(?P<version>[0-9A-Z\.]+)-b?(?P<build>[0-9]+)$', tlink, re.I)`,
returning the `version` and `build` groups.  The version group is a greedy
maximal run (its character class excludes `-`, so no backtracking into it
can succeed); the optional `b` is taken when present (the fallback of
leaving it unconsumed cannot make `[0-9]+` match a string starting with a
letter). -/
def parseAfter (r1 : Str) : Option (Str × Str) :=
  if r1.takeWhile isVerChar = [] then none
  else
    match r1.dropWhile isVerChar with
    | d :: c :: r4 =>
      if d = '-' then
        if c = 'b' ∨ c = 'B' then
          if r4 ≠ [] ∧ r4.all Char.isDigit then some (r1.takeWhile isVerChar, r4) else none
        else if (c :: r4).all Char.isDigit then some (r1.takeWhile isVerChar, c :: r4)
        else none
      else none
    | _ => none

def parseReleaseName (s : Str) : Option (Str × Str) :=
  match dropPfxCI PRODPAT s with
  | none => none
  | some r1 => parseAfter r1

/-- Model of `os.readlink`: succeeds exactly on symlink nodes. -/
def readlinkFS (fs : FS) (p : Str) : Option Str :=
  match fs (normp p) with
  | some (FNode.symlink t) => some t
  | _ => none

/-- Outcome of `get_current_release`: either the function returns (an
optional build string), or the unguarded `os.stat` raises an uncaught
exception that terminates the whole process with Python's exit code 1. -/
inductive Resolved where
  | ret (r : Option Str)
  | crash
deriving DecidableEq

/-- Model of `get_current_release` (src/upcata.py:102-121): read the
`current` symlink and parse its target name, returning the build group;
a missing or unreadable link, or an unparsable target name, yields
`Resolved.ret none` before the stat is reached.  On the parse-success
path, line 118 runs `os.stat('./current')` outside any `try`; `os.stat`
follows the symlink, so when the parsed link dangles it raises an
uncaught `FileNotFoundError` and the process dies (`Resolved.crash`). -/
def get_current_release (fs : FS) : Resolved :=
  match readlinkFS fs CURRENT_LINK with
  | none => Resolved.ret none
  | some tlink =>
    match parseReleaseName tlink with
    | none => Resolved.ret none
    | some vb =>
      if FS.live fs (normp CURRENT_LINK) then Resolved.ret (some vb.2)
      else Resolved.crash

/-- A downloadable asset of a GitHub release (fields used by the source). -/
structure Asset where
  label : Str
  name : Str
  browser_download_url : Str
deriving DecidableEq

/-- A release descriptor from the release API (fields consulted by the
selection logic; display-only fields are omitted). -/
structure Release where
  tag_name : Str
  assets : List Asset
deriving DecidableEq

/-- The result of `get_latest_release`: the selected release with the
derived `build` field and the selected asset `tasset`. -/
structure LatestRelease where
  build : Str
  tag_name : Str
  tasset : Asset
deriving DecidableEq

/-- Lower-case a string (Python `str.lower` on the ASCII labels used). -/
def toLowerStr (s : Str) : Str := s.map Char.toLower

/-- Exact-prefix test. -/
def isPfx : Str → Str → Bool
  | [], _ => true
  | _ :: _, [] => false
  | p :: ps, c :: cs => p == c && isPfx ps cs

/-- Occurrence of `pat` as a contiguous substring. -/
def occurs (pat : Str) : Str → Bool
  | [] => isPfx pat []
  | c :: cs => isPfx pat (c :: cs) || occurs pat cs

/-- Worker for `pyReplace`, structurally recursive on a fuel bounded by
the length of the string (each step consumes at least one character, so
the fuel never runs out on the initial call). -/
def pyGo (pat rep : Str) : Nat → Str → Str
  | _, [] => []
  | 0, s => s
  | fuel + 1, c :: cs =>
    if pat ≠ [] ∧ isPfx pat (c :: cs) = true then
      rep ++ pyGo pat rep fuel (List.drop pat.length (c :: cs))
    else
      c :: pyGo pat rep fuel cs

/-- Model of Python `str.replace(pat, rep)`: scan left to right replacing
every non-overlapping occurrence. -/
def pyReplace (pat rep s : Str) : Str := pyGo pat rep s.length s

/-- The assets of a release whose label matches the platform
case-insensitively (the list comprehension filter in the source). -/
def matchingAssets (platform : Str) (rel : Release) : List Asset :=
  rel.assets.filter (fun x => toLowerStr x.label == toLowerStr platform)

/-- The default tag prefix `cdda-jenkins-b`. -/
def JPRE : Str := "cdda-jenkins-b".data

/-- The platform string hard-coded in `_main`. -/
def PLATFORM : Str := "Linux_x64 Tiles".data

/-- Model of `get_latest_release` (src/upcata.py:81-100): pick the first
release with a case-insensitively matching asset label, derive `build` by
`tag_name.replace(pre, '')` and `tasset` as the first matching asset;
`none` when no release matches. -/
def get_latest_release (releases : List Release) (platform : Str) (pre : Str) :
    Option LatestRelease :=
  match releases.find? (fun trel => !(matchingAssets platform trel).isEmpty) with
  | none => none
  | some trel =>
    match matchingAssets platform trel with
    | [] => none
    | a :: _ => some ⟨pyReplace pre [] trel.tag_name, trel.tag_name, a⟩

/-- Outcome of the HTTP GET for the asset: `r.raise_for_status()` passes
(`ok`) or raises (`err`).  Transport-level exceptions, which the source
does not catch, are outside the model. -/
inductive HStatus where
  | ok
  | err
deriving DecidableEq

/-- Normalized local download path,
`os.path.realpath(os.path.join(save_prefix, filename))`. -/
def dlPath (r : LatestRelease) : Str := normp (joinp dotSlash r.tasset.name)

/-- Model of `download_release` (src/upcata.py:123-150): the destination is
opened with mode `'wb'` (creating it, or truncating an existing file, to
zero bytes) before the response status is inspected; on a bad status the
function returns `None` with the truncated file left behind, otherwise the
body is written and the local path returned. -/
def download_release (status : HStatus) (content : Str) (fs : FS)
    (url filename save_pre : Str) : Option Str × FS :=
  let lpath := normp (joinp save_pre filename)
  let fs1 := FS.set fs lpath (FNode.file [])
  match status with
  | HStatus.err => (none, fs1)
  | HStatus.ok => (some lpath, FS.set fs1 lpath (FNode.file content))

/-- The parsed content of the downloaded archive.  `corrupt` models
`tarfile.open`/`getmembers` raising (unreadable archive); `firstName` is
`getmembers()[0].name`; `members` are the entries `extractall` creates,
keyed by root-relative path (the extraction prefix is always `./`). -/
structure Tarball where
  corrupt : Bool
  firstName : Str
  members : List (Str × FNode)
deriving DecidableEq

/-- First path component: `name.split('/')[0]`. -/
def firstComponent (s : Str) : Str := s.takeWhile (fun c => !(c == '/'))

/-- Apply all archive members in order (later entries win, as with
sequential extraction). -/
def extractMembers (fs : FS) (ms : List (Str × FNode)) : FS :=
  ms.foldl (fun a e => FS.set a e.1 e.2) fs

/-- Last member at a given path, if any. -/
def lastEntry (ms : List (Str × FNode)) (q : Str) : Option FNode :=
  match ms with
  | [] => none
  | e :: rest =>
    match lastEntry rest q with
    | some n => some n
    | none => if e.1 = q then some e.2 else none

/-- Top-level directory name of the archive. -/
def tarTop (t : Tarball) : Str := firstComponent t.firstName

/-- Model of `extract_tarball` (src/upcata.py:152-178): fail on an
unreadable archive; determine the top-level directory name; refuse to
extract if it already exists under the prefix (the check is
`os.path.exists` on the realpath of that name, which follows symlinks, so
a dangling symlink there does not block extraction), returning `None`
with the filesystem unchanged; otherwise extract every member and return
the top-level name. -/
def extract_tarball (t : Tarball) (fs : FS) : Option Str × FS :=
  if t.corrupt then (none, fs)
  else
    let ppath := normp dotSlash
    let topdir := tarTop t
    let rtopdir := normp (joinp ppath topdir)
    if FS.live fs rtopdir then (none, fs)
    else (some topdir, extractMembers fs t.members)

/-- Model of `os.rename` on a directory tree in the flat filesystem: the
node at `src` and every node below it move under `dst`. -/
def moveTree (fs : FS) (src dst : Str) : FS :=
  fun q =>
    if q = dst then fs src
    else
      match dropPfx (dst ++ sl) q with
      | some rel => fs (src ++ '/' :: rel)
      | none =>
        if q = src then none
        else
          match dropPfx (src ++ sl) q with
          | some _ => none
          | none => fs q

/-- Model of `os.symlink(target, p)`: fails (raises, uncaught in the
source at lines 289-291) when `p` already exists. -/
def symlinkOp (fs : FS) (p target : Str) : Option FS :=
  if FS.exists? fs p then none
  else some (FS.set fs p (FNode.symlink target))

/-- Model of one `os.makedirs(os.path.join(USERDATA_DIR, s))` call:
creates the userdata root if missing, then the leaf; raises
(`FileExistsError`, returning `none`) when the leaf already exists, since
the source passes no `exist_ok`. -/
def makedirsUD (fs : FS) (leaf : Str) : Option FS :=
  if FS.exists? fs leaf then none
  else
    some (FS.set (if FS.exists? fs udRoot then fs else FS.set fs udRoot FNode.dir)
      leaf FNode.dir)

/-- Model of the ENSURING_USERDATA block (src/upcata.py:273-286): if any
of the three subdirectories is missing (the gate is `os.path.exists`,
which follows symlinks), run the three `os.makedirs` calls in order
inside one `try`; the first exception aborts the remaining calls (it is
caught and only logged). -/
def ensure_userdata (fs : FS) : FS :=
  if FS.live fs (udPath sSave) && FS.live fs (udPath sConfig)
      && FS.live fs (udPath sSound) then fs
  else
    match makedirsUD fs (udPath sSave) with
    | none => fs
    | some fsA =>
      match makedirsUD fsA (udPath sConfig) with
      | none => fsA
      | some fsB =>
        match makedirsUD fsB (udPath sSound) with
        | none => fsB
        | some fsC => fsC

/-- Copy of the whole tree below `src` to below `dst` (model of
`shutil.copytree(src, dst, symlinks=True)`: every node, symlink nodes
included, is reproduced unchanged at the corresponding path under `dst`). -/
def copyTree (fs : FS) (src dst : Str) : FS :=
  fun q =>
    if q = dst then fs src
    else
      match dropPfx (dst ++ sl) q with
      | some rel => fs (src ++ '/' :: rel)
      | none => fs q

/-- Backup destination `os.path.realpath('save-' + now)`. -/
def bakName (now : Str) : Str := normp ("save-".data ++ now)

/-- Model of `backup_data` (src/upcata.py:180-195): copy the userdata tree
to `save-<timestamp>`; the modelled failures of `shutil.copytree` — the
source missing or not a directory (its initial `os.listdir`), the
destination already present or otherwise uncreatable (its initial
`os.makedirs`, whose exogenous failure such as a permission error is the
`ioFail` flag) — all occur before any node is copied, so they leave the
filesystem unchanged and are caught and surfaced as the `None` sentinel.
A failure after copying has begun would leave a partially copied
destination tree; no claim asserts the state after such a failure, and
the model does not cover it. -/
def backup_data (now : Str) (ioFail : Bool) (fs : FS) : Option Str × FS :=
  let srcdir := normp USERDATA_DIR
  let savedir := bakName now
  if ioFail || FS.exists? fs savedir || !(fs srcdir == some FNode.dir) then
    (none, fs)
  else
    (some savedir, copyTree fs srcdir savedir)

/-- External inputs of one invocation. -/
structure Env where
  releases : List Release
  dlStatus : HStatus
  dlContent : Str
  tar : Tarball
  backupIOFail : Bool
  now : Str
deriving DecidableEq

/-- Directory name after the rename, `tdir + '-' + rlatest['build']`
(src/upcata.py:258) for the success path where `tdir` is the archive's
top-level directory. -/
def newDirName (env : Env) (r : LatestRelease) : Str :=
  tarTop env.tar ++ '-' :: r.build

/-- Model of `os.unlink(linkpath)` at src/upcata.py:267-270: removes the
node unless it is a directory, in which case `os.unlink` raises
`IsADirectoryError`, which the bare `except` catches and only logs — the
node stays. -/
def unlinkOp (fs : FS) (p : Str) : FS :=
  match fs p with
  | some FNode.dir => fs
  | _ => FS.del fs p

/-- The state after the relink succeeded (src/upcata.py:265-271): the old
`current` removed (when removable) and the new symlink created. -/
def lnFS (newpath : Str) (fs3 : FS) : FS :=
  FS.set (unlinkOp fs3 curKey) curKey (FNode.symlink newpath)

/-- The three data symlinks created at src/upcata.py:289-291, one `FS.set`
per successful `os.symlink`. -/
def slFS (newpath : Str) (fs5 : FS) : FS :=
  FS.set
    (FS.set (FS.set fs5 (joinp newpath sSave) (FNode.symlink (udPath sSave)))
      (joinp newpath sConfig) (FNode.symlink (udPath sConfig)))
    (joinp newpath sSound) (FNode.symlink (udPath sSound))

/-- Steps of `_main` from the relink on (src/upcata.py:265-305): try to
remove the old `current` (`unlinkOp`; failure is only warned about), then
`os.symlink` the renamed directory there — uncaught `FileExistsError`
(process exit 1) when a node, e.g. an unremovable directory, still
occupies the path; then the ENSURING_USERDATA block, the three data
symlinks inside the new directory (each an uncaught-on-failure
`os.symlink`), and the backup, whose failure only changes the printed
summary. -/
def relinkAndFinish (env : Env) (newpath : Str) (fs3 : FS) : Nat × FS :=
  match symlinkOp (unlinkOp fs3 curKey) curKey newpath with
  | none => (1, unlinkOp fs3 curKey)
  | some fs4 =>
    let fs5 := ensure_userdata fs4
    match symlinkOp fs5 (joinp newpath sSave) (udPath sSave) with
    | none => (1, fs5)
    | some fsA =>
      match symlinkOp fsA (joinp newpath sConfig) (udPath sConfig) with
      | none => (1, fsA)
      | some fsB =>
        match symlinkOp fsB (joinp newpath sSound) (udPath sSound) with
        | none => (1, fsB)
        | some fs6 => (0, (backup_data env.now env.backupIOFail fs6).2)

/-- The rename step (src/upcata.py:257-263): `os.rename(tdir, newpath)`
where `tdir` is the extracted directory.  `rename(2)` succeeds when
nothing exists at the destination — and also when an empty directory
does, which it atomically replaces; a file or symlink destination fails
with `ENOTDIR`, caught and exiting with code 2.  A nonempty directory
destination would fail with `ENOTEMPTY`; emptiness is not expressible in
the flat map, so a directory destination is modelled as the empty
(replaced) case — no modelled layout or claim renames onto a nonempty
directory. -/
def renameStep (env : Env) (r : LatestRelease) (tdir : Str) (fs2 : FS) : Nat × FS :=
  match fs2 (tdir ++ '-' :: r.build) with
  | some (FNode.file _) => (2, fs2)
  | some (FNode.symlink _) => (2, fs2)
  | _ =>
    relinkAndFinish env (tdir ++ '-' :: r.build)
      (moveTree fs2 tdir (tdir ++ '-' :: r.build))

/-- The extraction step (src/upcata.py:251-255): failure exits with
code 2. -/
def extractStep (env : Env) (r : LatestRelease) (fs1 : FS) : Nat × FS :=
  match extract_tarball env.tar fs1 with
  | (none, fs2) => (2, fs2)
  | (some tdir, fs2) => renameStep env r tdir fs2

/-- The download step (src/upcata.py:245-249): failure exits with
code 2. -/
def updateStep (env : Env) (r : LatestRelease) (fs : FS) : Nat × FS :=
  match download_release env.dlStatus env.dlContent fs
      r.tasset.browser_download_url r.tasset.name dotSlash with
  | (none, fs1) => (2, fs1)
  | (some _, fs1) => extractStep env r fs1

/-- Model of `_main` (src/upcata.py:210-307), returning the process exit
code and the final filesystem: `get_current_release` runs first, and its
uncaught stat failure kills the process (exit 1) before the release query
and before any mutation; then exit 1 when no usable release exists;
exit 0 with no mutation when up to date; exit 0 with no mutation on a
check-only run (the changelog display touches no state); otherwise the
update pipeline. -/
def _main (env : Env) (update : Bool) (fs : FS) : Nat × FS :=
  match get_current_release fs with
  | Resolved.crash => (1, fs)
  | Resolved.ret rlocal =>
    match get_latest_release env.releases PLATFORM JPRE with
    | none => (1, fs)
    | some rlatest =>
      if rlocal = some rlatest.build then (0, fs)
      else if update then updateStep env rlatest fs
      else (0, fs)

theorem FS.set_self (fs : FS) (p : Str) (n : FNode) : FS.set fs p n p = some n := by
  simp [FS.set]

theorem FS.set_ne (fs : FS) (p : Str) (n : FNode) {q : Str} (h : q ≠ p) :
    FS.set fs p n q = fs q := by
  simp [FS.set, h]

theorem FS.del_self (fs : FS) (p : Str) : FS.del fs p p = none := by
  simp [FS.del]

theorem FS.del_ne (fs : FS) (p : Str) {q : Str} (h : q ≠ p) : FS.del fs p q = fs q := by
  simp [FS.del, h]

theorem append_cons_ne (a : Str) (c : Char) (r : Str) : a ++ c :: r ≠ a := by
  intro h
  have := congrArg List.length h
  simp at this

theorem dropPfx_append (p r : Str) : dropPfx p (p ++ r) = some r := by
  induction p with
  | nil => rfl
  | cons c cs ih => simp [dropPfx, ih]

theorem dropPfx_some {p s r : Str} (h : dropPfx p s = some r) : s = p ++ r := by
  induction p generalizing s with
  | nil => simpa [dropPfx] using h
  | cons c cs ih =>
    cases s with
    | nil => simp [dropPfx] at h
    | cons x xs =>
      by_cases hx : x = c
      · subst hx
        simp only [dropPfx, if_pos rfl] at h
        simpa using ih h
      · simp [dropPfx, hx] at h

theorem takeWhile_of_all_append {f : Char → Bool} {v : Str} (x : Char) (t : Str)
    (hv : ∀ c ∈ v, f c = true) (hx : f x = false) :
    (v ++ x :: t).takeWhile f = v := by
  induction v with
  | nil => simp [List.takeWhile, hx]
  | cons c cs ih =>
    have hc : f c = true := hv c (by simp)
    simp only [List.cons_append, List.takeWhile_cons, hc]
    simp [ih (fun d hd => hv d (by simp [hd]))]

theorem dropWhile_of_all_append {f : Char → Bool} {v : Str} (x : Char) (t : Str)
    (hv : ∀ c ∈ v, f c = true) (hx : f x = false) :
    (v ++ x :: t).dropWhile f = x :: t := by
  induction v with
  | nil => simp [List.dropWhile, hx]
  | cons c cs ih =>
    have hc : f c = true := hv c (by simp)
    simp only [List.cons_append, List.dropWhile_cons, hc]
    simpa using ih (fun d hd => hv d (by simp [hd]))

theorem mem_takeWhile_sat {f : Char → Bool} {l : Str} {c : Char}
    (h : c ∈ l.takeWhile f) : f c = true := by
  induction l with
  | nil => simp [List.takeWhile] at h
  | cons x xs ih =>
    by_cases hx : f x = true
    · simp only [List.takeWhile_cons, hx] at h
      rcases List.mem_cons.mp h with h1 | h2
      · rwa [h1]
      · exact ih h2
    · simp only [List.takeWhile_cons] at h
      rw [Bool.not_eq_true] at hx
      simp [hx] at h

/-- Case-insensitive equality of two strings (what matching the literal
part of the pattern under `re.I` means). -/
def ciEq : Str → Str → Bool
  | [], [] => true
  | a :: as, b :: bs => (a.toLower == b.toLower) && ciEq as bs
  | _, _ => false

theorem dropPfxCI_of_ciEq : ∀ (pat p r : Str), ciEq p pat = true →
    dropPfxCI pat (p ++ r) = some r := by
  intro pat
  induction pat with
  | nil =>
    intro p r h
    cases p with
    | nil => rfl
    | cons a as => simp [ciEq] at h
  | cons x xs ih =>
    intro p r h
    cases p with
    | nil => simp [ciEq] at h
    | cons a as =>
      simp only [ciEq, Bool.and_eq_true, beq_iff_eq] at h
      simpa [dropPfxCI, h.1] using ih as r h.2

theorem dropPfxCI_some : ∀ (pat s r : Str), dropPfxCI pat s = some r →
    ∃ p : Str, ciEq p pat = true ∧ s = p ++ r := by
  intro pat
  induction pat with
  | nil =>
    intro s r h
    simp only [dropPfxCI, Option.some.injEq] at h
    exact ⟨[], rfl, by simp [h]⟩
  | cons x xs ih =>
    intro s r h
    cases s with
    | nil => simp [dropPfxCI] at h
    | cons c cs =>
      by_cases hc : c.toLower = x.toLower
      · simp only [dropPfxCI, if_pos hc] at h
        obtain ⟨p, hp, hs⟩ := ih cs r h
        exact ⟨c :: p, by simp [ciEq, hc, hp], by simp [hs]⟩
      · simp [dropPfxCI, hc] at h

/-- The shape described by the symlink-name pattern: a case-insensitive
match of the literal `cataclysmdda-`, a nonempty version token of
alphanumerics and dots, a separator `-`, an optional literal `b` (either
case, as the whole pattern carries `re.I`), and a nonempty digit run. -/
def ReleasePatternMatch (s v b : Str) : Prop :=
  ∃ p ob : Str, ciEq p PRODPAT = true ∧ v ≠ [] ∧ v.all isVerChar = true ∧
    (ob = [] ∨ ob = ['b'] ∨ ob = ['B']) ∧ b ≠ [] ∧ b.all Char.isDigit = true ∧
    s = p ++ v ++ '-' :: (ob ++ b)

theorem parse_eq_after {s r1 : Str} (hd : dropPfxCI PRODPAT s = some r1) :
    parseReleaseName s = parseAfter r1 := by
  rw [parseReleaseName, hd]

theorem parseAfter_of_verEmpty {r1 : Str} (h : r1.takeWhile isVerChar = []) :
    parseAfter r1 = none := by
  rw [parseAfter, if_pos h]

theorem parseAfter_of_dropNil {r1 : Str} (hver : ¬r1.takeWhile isVerChar = [])
    (hdw : r1.dropWhile isVerChar = []) : parseAfter r1 = none := by
  rw [parseAfter, if_neg hver, hdw]

theorem parseAfter_of_dropOne {r1 : Str} {d : Char} (hver : ¬r1.takeWhile isVerChar = [])
    (hdw : r1.dropWhile isVerChar = [d]) : parseAfter r1 = none := by
  rw [parseAfter, if_neg hver, hdw]

theorem parseAfter_of_dropCons {r1 : Str} {d c : Char} {r4 : Str}
    (hver : ¬r1.takeWhile isVerChar = []) (hdw : r1.dropWhile isVerChar = d :: c :: r4) :
    parseAfter r1 =
      if d = '-' then
        if c = 'b' ∨ c = 'B' then
          if r4 ≠ [] ∧ r4.all Char.isDigit then some (r1.takeWhile isVerChar, r4) else none
        else if (c :: r4).all Char.isDigit then some (r1.takeWhile isVerChar, c :: r4)
        else none
      else none := by
  rw [parseAfter, if_neg hver, hdw]

theorem parse_of_match {s v b : Str} (h : ReleasePatternMatch s v b) :
    parseReleaseName s = some (v, b) := by
  obtain ⟨p, ob, hci, hv, hvc, hob, hb, hbd, hs⟩ := h
  subst hs
  have hvc' : ∀ c ∈ v, isVerChar c = true := by
    intro c hc
    exact List.all_eq_true.mp hvc c hc
  have hdash : isVerChar '-' = false := by decide
  have hdrop : dropPfxCI PRODPAT (p ++ (v ++ '-' :: (ob ++ b))) = some (v ++ '-' :: (ob ++ b)) :=
    dropPfxCI_of_ciEq PRODPAT p _ hci
  have htw : (v ++ '-' :: (ob ++ b)).takeWhile isVerChar = v :=
    takeWhile_of_all_append _ _ hvc' hdash
  have hver : ¬(v ++ '-' :: (ob ++ b)).takeWhile isVerChar = [] := by
    rw [htw]; exact hv
  rw [List.append_assoc, parse_eq_after hdrop]
  rcases hob with hob | hob | hob
  · subst hob
    cases b with
    | nil => exact absurd rfl hb
    | cons c b' =>
      have hdw : (v ++ '-' :: ([] ++ c :: b')).dropWhile isVerChar = '-' :: c :: b' :=
        dropWhile_of_all_append _ _ hvc' hdash
      have hcd : c.isDigit = true := by
        have := List.all_eq_true.mp hbd c (by simp)
        simpa using this
      have hnotb : ¬(c = 'b' ∨ c = 'B') := by
        rintro (rfl | rfl) <;> simp at hcd
      rw [parseAfter_of_dropCons hver (by simpa using hdw), if_pos rfl, if_neg hnotb,
        if_pos hbd, htw]
  · subst hob
    have hdw : (v ++ '-' :: (['b'] ++ b)).dropWhile isVerChar = '-' :: 'b' :: b :=
      dropWhile_of_all_append _ _ hvc' hdash
    rw [parseAfter_of_dropCons hver (by simpa using hdw), if_pos rfl,
      if_pos (Or.inl rfl), if_pos ⟨hb, hbd⟩, htw]
  · subst hob
    have hdw : (v ++ '-' :: (['B'] ++ b)).dropWhile isVerChar = '-' :: 'B' :: b :=
      dropWhile_of_all_append _ _ hvc' hdash
    rw [parseAfter_of_dropCons hver (by simpa using hdw), if_pos rfl,
      if_pos (Or.inr rfl), if_pos ⟨hb, hbd⟩, htw]

theorem match_of_parse {s v b : Str} (h : parseReleaseName s = some (v, b)) :
    ReleasePatternMatch s v b := by
  cases hd : dropPfxCI PRODPAT s with
  | none => rw [parseReleaseName, hd] at h; exact absurd h (by simp)
  | some r1 =>
    rw [parse_eq_after hd] at h
    obtain ⟨p, hci, hs⟩ := dropPfxCI_some PRODPAT s r1 hd
    by_cases hver : r1.takeWhile isVerChar = []
    · rw [parseAfter_of_verEmpty hver] at h; exact absurd h (by simp)
    · have hall : (r1.takeWhile isVerChar).all isVerChar = true := by
        apply List.all_eq_true.mpr
        intro c hc
        exact mem_takeWhile_sat hc
      have hsplit : r1.takeWhile isVerChar ++ r1.dropWhile isVerChar = r1 :=
        List.takeWhile_append_dropWhile isVerChar r1
      cases hdw : r1.dropWhile isVerChar with
      | nil => rw [parseAfter_of_dropNil hver hdw] at h; exact absurd h (by simp)
      | cons d rest =>
        cases rest with
        | nil => rw [parseAfter_of_dropOne hver hdw] at h; exact absurd h (by simp)
        | cons c r4 =>
          rw [parseAfter_of_dropCons hver hdw] at h
          by_cases hdsh : d = '-'
          · rw [if_pos hdsh] at h
            subst hdsh
            by_cases hcb : c = 'b' ∨ c = 'B'
            · rw [if_pos hcb] at h
              by_cases h4 : r4 ≠ [] ∧ r4.all Char.isDigit = true
              · rw [if_pos h4] at h
                have hvb : r1.takeWhile isVerChar = v ∧ r4 = b := by
                  have := (Option.some.injEq _ _).mp h
                  exact ⟨congrArg Prod.fst this, congrArg Prod.snd this⟩
                refine ⟨p, [c], hci, ?_, ?_, ?_, ?_, ?_, ?_⟩
                · rw [← hvb.1]; exact hver
                · rw [← hvb.1]; exact hall
                · rcases hcb with rfl | rfl
                  · exact Or.inr (Or.inl rfl)
                  · exact Or.inr (Or.inr rfl)
                · rw [← hvb.2]; exact h4.1
                · rw [← hvb.2]; exact h4.2
                · rw [hs, ← hsplit, hdw, hvb.1, hvb.2]; simp
              · rw [if_neg h4] at h; exact absurd h (by simp)
            · rw [if_neg hcb] at h
              by_cases hda : (c :: r4).all Char.isDigit = true
              · rw [if_pos hda] at h
                have hvb : r1.takeWhile isVerChar = v ∧ c :: r4 = b := by
                  have := (Option.some.injEq _ _).mp h
                  exact ⟨congrArg Prod.fst this, congrArg Prod.snd this⟩
                refine ⟨p, [], hci, ?_, ?_, Or.inl rfl, ?_, ?_, ?_⟩
                · rw [← hvb.1]; exact hver
                · rw [← hvb.1]; exact hall
                · rw [← hvb.2]; simp
                · rw [← hvb.2]; exact hda
                · rw [hs, ← hsplit, hdw, hvb.1, hvb.2]; simp
              · rw [if_neg (by simpa using hda)] at h; exact absurd h (by simp)
          · rw [if_neg hdsh] at h; exact absurd h (by simp)

theorem extractMembers_apply (ms : List (Str × FNode)) : ∀ (fs : FS) (q : Str),
    extractMembers fs ms q =
      match lastEntry ms q with
      | some n => some n
      | none => fs q := by
  induction ms with
  | nil => intro fs q; rfl
  | cons e rest ih =>
    intro fs q
    have step : extractMembers fs (e :: rest) = extractMembers (FS.set fs e.1 e.2) rest := by
      simp [extractMembers]
    rw [step, ih]
    cases h : lastEntry rest q with
    | some n => simp [lastEntry, h]
    | none =>
      by_cases he : e.1 = q
      · simp [lastEntry, h, he, FS.set]
      · have : ¬q = e.1 := fun hq => he hq.symm
        simp [lastEntry, h, he, FS.set, this]

theorem moveTree_dst (fs : FS) (src dst : Str) : moveTree fs src dst dst = fs src := by
  simp [moveTree]

theorem moveTree_under_dst (fs : FS) (src dst : Str) {q rel : Str} (h1 : q ≠ dst)
    (h2 : dropPfx (dst ++ sl) q = some rel) :
    moveTree fs src dst q = fs (src ++ '/' :: rel) := by
  simp [moveTree, h1, h2]

theorem moveTree_other (fs : FS) (src dst : Str) {q : Str} (h1 : q ≠ dst)
    (h2 : dropPfx (dst ++ sl) q = none) (h3 : q ≠ src)
    (h4 : dropPfx (src ++ sl) q = none) :
    moveTree fs src dst q = fs q := by
  simp [moveTree, h1, h2, h3, h4]

theorem copyTree_dst (fs : FS) (src dst : Str) : copyTree fs src dst dst = fs src := by
  simp [copyTree]

theorem copyTree_under_dst (fs : FS) (src dst : Str) {q rel : Str} (h1 : q ≠ dst)
    (h2 : dropPfx (dst ++ sl) q = some rel) :
    copyTree fs src dst q = fs (src ++ '/' :: rel) := by
  simp [copyTree, h1, h2]

theorem copyTree_other (fs : FS) (src dst : Str) {q : Str} (h1 : q ≠ dst)
    (h2 : dropPfx (dst ++ sl) q = none) :
    copyTree fs src dst q = fs q := by
  simp [copyTree, h1, h2]

theorem symlinkOp_free (fs : FS) (p t : Str) (h : fs p = none) :
    symlinkOp fs p t = some (FS.set fs p (FNode.symlink t)) := by
  simp [symlinkOp, FS.exists?, h]

theorem unlinkOp_ne (fs : FS) (p : Str) {q : Str} (h : q ≠ p) : unlinkOp fs p q = fs q := by
  cases hn : fs p with
  | none => simp [unlinkOp, hn, FS.del_ne _ _ h]
  | some n =>
    cases n with
    | dir => simp [unlinkOp, hn]
    | file c => simp [unlinkOp, hn, FS.del_ne _ _ h]
    | symlink t => simp [unlinkOp, hn, FS.del_ne _ _ h]

theorem unlinkOp_clear (fs : FS) (p : Str) (h : fs p ≠ some FNode.dir) :
    unlinkOp fs p p = none := by
  cases hn : fs p with
  | none => simp [unlinkOp, hn, FS.del_self]
  | some n =>
    cases n with
    | dir => exact absurd hn h
    | file c => simp [unlinkOp, hn, FS.del_self]
    | symlink t => simp [unlinkOp, hn, FS.del_self]

theorem live_of_none {fs : FS} {p : Str} (h : fs p = none) : FS.live fs p = false := by
  simp [FS.live, h]

theorem live_of_dir {fs : FS} {p : Str} (h : fs p = some FNode.dir) :
    FS.live fs p = true := by
  simp [FS.live, h]

theorem makedirsUD_some_apply {fs fs' : FS} {leaf : Str} (h : makedirsUD fs leaf = some fs')
    {q : Str} (h1 : q ≠ leaf) (h2 : q ≠ udRoot) : fs' q = fs q := by
  by_cases he : FS.exists? fs leaf
  · simp [makedirsUD, he] at h
  · simp only [makedirsUD, he, Bool.false_eq_true, if_false, Option.some.injEq] at h
    subst h
    rw [FS.set_ne _ _ _ h1]
    by_cases hr : FS.exists? fs udRoot
    · simp [hr]
    · simp [hr, FS.set_ne _ _ _ h2]

theorem ensure_userdata_other (fs : FS) {q : Str} (h1 : q ≠ udRoot)
    (h2 : q ≠ udPath sSave) (h3 : q ≠ udPath sConfig) (h4 : q ≠ udPath sSound) :
    ensure_userdata fs q = fs q := by
  rw [ensure_userdata]
  by_cases hall : (FS.live fs (udPath sSave) && FS.live fs (udPath sConfig)
      && FS.live fs (udPath sSound)) = true
  · rw [if_pos hall]
  · rw [if_neg hall]
    cases m1 : makedirsUD fs (udPath sSave) with
    | none => rfl
    | some fsA =>
      show (match makedirsUD fsA (udPath sConfig) with
            | none => fsA
            | some fsB =>
              match makedirsUD fsB (udPath sSound) with
              | none => fsB
              | some fsC => fsC) q = fs q
      cases m2 : makedirsUD fsA (udPath sConfig) with
      | none => exact makedirsUD_some_apply m1 h2 h1
      | some fsB =>
        show (match makedirsUD fsB (udPath sSound) with
              | none => fsB
              | some fsC => fsC) q = fs q
        cases m3 : makedirsUD fsB (udPath sSound) with
        | none =>
          show fsB q = fs q
          rw [makedirsUD_some_apply m2 h3 h1, makedirsUD_some_apply m1 h2 h1]
        | some fsC =>
          show fsC q = fs q
          rw [makedirsUD_some_apply m3 h4 h1, makedirsUD_some_apply m2 h3 h1,
            makedirsUD_some_apply m1 h2 h1]

theorem backup_data_ioFail (now : Str) (fs : FS) : backup_data now true fs = (none, fs) := by
  simp [backup_data]

theorem backup_data_success {now : Str} {fs : FS} {io : Bool} (h1 : io = false)
    (h2 : fs (bakName now) = none) (h3 : fs (normp USERDATA_DIR) = some FNode.dir) :
    backup_data now io fs =
      (some (bakName now), copyTree fs (normp USERDATA_DIR) (bakName now)) := by
  simp [backup_data, h1, FS.exists?, h2, h3]

theorem backup_data_other (now : Str) (io : Bool) (fs : FS) {q : Str}
    (h1 : q ≠ bakName now) (h2 : dropPfx (bakName now ++ sl) q = none) :
    (backup_data now io fs).2 q = fs q := by
  rw [backup_data]
  by_cases hc : (io || FS.exists? fs (bakName now)
      || !(fs (normp USERDATA_DIR) == some FNode.dir)) = true
  · rw [if_pos hc]
  · rw [if_neg hc]
    exact copyTree_other fs _ _ h1 h2

theorem isPfx_append (p r : Str) : isPfx p (p ++ r) = true := by
  induction p with
  | nil => rfl
  | cons c cs ih => simp [isPfx, ih]

theorem pyGo_no_occur {pat : Str} (rep : Str) :
    ∀ (fuel : Nat) (s : Str), s.length ≤ fuel → occurs pat s = false →
      pyGo pat rep fuel s = s := by
  intro fuel
  induction fuel with
  | zero =>
    intro s hle _
    cases s with
    | nil => rfl
    | cons c cs => simp at hle
  | succ f ih =>
    intro s hle hocc
    cases s with
    | nil => rfl
    | cons c cs =>
      rw [occurs, Bool.or_eq_false_iff] at hocc
      rw [pyGo, if_neg (by simp [hocc.1])]
      rw [ih cs (by simp only [List.length_cons] at hle; omega) hocc.2]

theorem pyReplace_no_occur {pat : Str} (rep : Str) (s : Str)
    (hocc : occurs pat s = false) : pyReplace pat rep s = s :=
  pyGo_no_occur rep s.length s (Nat.le_refl _) hocc

theorem pyReplace_strip {pat rest : Str} (rep : Str) (hp : pat ≠ [])
    (hocc : occurs pat rest = false) :
    pyReplace pat rep (pat ++ rest) = rep ++ rest := by
  cases pat with
  | nil => exact absurd rfl hp
  | cons p ps =>
    show pyGo (p :: ps) rep ((ps ++ rest).length + 1) (p :: (ps ++ rest)) = rep ++ rest
    rw [pyGo, if_pos ⟨hp, isPfx_append (p :: ps) rest⟩]
    have hdrop : List.drop (p :: ps).length (p :: (ps ++ rest)) = rest := by
      simp only [List.length_cons, List.drop_succ_cons]
      exact List.drop_left ps rest
    rw [hdrop, pyGo_no_occur rep _ rest
      (by simp only [List.length_append]; omega) hocc]

theorem find?_match_append (pl : Str) (pres : List Release) (rel : Release)
    (post : List Release) (hpres : ∀ q ∈ pres, matchingAssets pl q = [])
    (hrel : matchingAssets pl rel ≠ []) :
    (pres ++ rel :: post).find? (fun trel => !(matchingAssets pl trel).isEmpty) = some rel := by
  induction pres with
  | nil =>
    apply List.find?_cons_of_pos
    simp [List.isEmpty_iff, hrel]
  | cons p ps ih =>
    have hp : matchingAssets pl p = [] := hpres p (by simp)
    rw [List.cons_append, List.find?_cons_of_neg _ (by simp [hp])]
    exact ih (fun q hq => hpres q (by simp [hq]))

theorem get_latest_first_match (pl pre : Str) (pres : List Release) (rel : Release)
    (post : List Release) (a : Asset) (arest : List Asset)
    (hpres : ∀ q ∈ pres, matchingAssets pl q = [])
    (hm : matchingAssets pl rel = a :: arest) :
    get_latest_release (pres ++ rel :: post) pl pre =
      some ⟨pyReplace pre [] rel.tag_name, rel.tag_name, a⟩ := by
  rw [get_latest_release, find?_match_append pl pres rel post hpres (by simp [hm])]
  show (match matchingAssets pl rel with
        | [] => (none : Option LatestRelease)
        | a2 :: _ => some (LatestRelease.mk (pyReplace pre [] rel.tag_name) rel.tag_name a2)) =
      some (LatestRelease.mk (pyReplace pre [] rel.tag_name) rel.tag_name a)
  rw [hm]

theorem get_latest_none_iff (rels : List Release) (pl pre : Str) :
    get_latest_release rels pl pre = none ↔ ∀ rel ∈ rels, matchingAssets pl rel = [] := by
  cases hf : rels.find? (fun trel => !(matchingAssets pl trel).isEmpty) with
  | none =>
    rw [get_latest_release, hf]
    constructor
    · intro _ rel hrel
      have h2 := List.find?_eq_none.mp hf rel hrel
      simpa [List.isEmpty_iff] using h2
    · intro _
      rfl
  | some trel =>
    rw [get_latest_release, hf]
    have hptrel := List.find?_some hf
    have htmem : trel ∈ rels := List.mem_of_find?_eq_some hf
    have hne : matchingAssets pl trel ≠ [] := by
      simpa [List.isEmpty_iff] using hptrel
    show (match matchingAssets pl trel with
          | [] => (none : Option LatestRelease)
          | a2 :: _ => some (LatestRelease.mk (pyReplace pre [] trel.tag_name) trel.tag_name a2))
        = none ↔ ∀ rel ∈ rels, matchingAssets pl rel = []
    cases hm : matchingAssets pl trel with
    | nil => exact absurd hm hne
    | cons a arest =>
      constructor
      · intro h; exact absurd h (by simp)
      · intro h; exact absurd (h trel htmem) hne

/-- Filesystem after a successful download: the destination is created
truncated, then filled with the body. -/
def dlFS (env : Env) (r : LatestRelease) (fs : FS) : FS :=
  FS.set (FS.set fs (dlPath r) (FNode.file [])) (dlPath r) (FNode.file env.dlContent)

/-- Filesystem at the end of a fully successful update run. -/
def finalFS (env : Env) (r : LatestRelease) (fs : FS) : FS :=
  (backup_data env.now env.backupIOFail
    (slFS (newDirName env r)
      (ensure_userdata (lnFS (newDirName env r)
        (moveTree (extractMembers (dlFS env r fs) env.tar.members)
          (tarTop env.tar) (newDirName env r)))))).2

theorem download_release_ok (env : Env) (r : LatestRelease) (fs : FS)
    (hdl : env.dlStatus = HStatus.ok) :
    download_release env.dlStatus env.dlContent fs r.tasset.browser_download_url
      r.tasset.name dotSlash = (some (dlPath r), dlFS env r fs) := by
  simp [download_release, hdl, dlFS, dlPath]

theorem download_release_err (status : HStatus) (content : Str) (fs : FS)
    (url filename save_pre : Str) (hdl : status = HStatus.err) :
    download_release status content fs url filename save_pre =
      (none, FS.set fs (normp (joinp save_pre filename)) (FNode.file [])) := by
  simp [download_release, hdl]

theorem updateStep_ok (env : Env) (r : LatestRelease) (fs : FS)
    (hdl : env.dlStatus = HStatus.ok) :
    updateStep env r fs = extractStep env r (dlFS env r fs) := by
  rw [updateStep, download_release_ok env r fs hdl]

theorem updateStep_err (env : Env) (r : LatestRelease) (fs : FS)
    (hdl : env.dlStatus = HStatus.err) :
    updateStep env r fs = (2, FS.set fs (dlPath r) (FNode.file [])) := by
  rw [updateStep, download_release_err env.dlStatus env.dlContent fs
    r.tasset.browser_download_url r.tasset.name dotSlash hdl]
  rfl

theorem extract_tarball_corrupt (t : Tarball) (fs : FS) (hc : t.corrupt = true) :
    extract_tarball t fs = (none, fs) := by
  simp [extract_tarball, hc]

theorem joinp_root (b : Str) : joinp (normp dotSlash) b = b := by
  rw [show normp dotSlash = ([] : Str) from rfl]
  simp [joinp]

theorem extract_tarball_blocked (t : Tarball) (fs : FS) (hc : t.corrupt = false)
    (he : FS.live fs (normp (tarTop t)) = true) :
    extract_tarball t fs = (none, fs) := by
  simp [extract_tarball, hc, joinp_root, he]

theorem extract_tarball_ok (t : Tarball) (fs : FS) (hc : t.corrupt = false)
    (he : fs (normp (tarTop t)) = none) :
    extract_tarball t fs = (some (tarTop t), extractMembers fs t.members) := by
  simp [extract_tarball, hc, joinp_root, live_of_none he]

theorem extractStep_fail (env : Env) (r : LatestRelease) (fs1 fs1' : FS)
    (hext : extract_tarball env.tar fs1 = (none, fs1')) :
    extractStep env r fs1 = (2, fs1') := by
  rw [extractStep, hext]

theorem extractStep_ok (env : Env) (r : LatestRelease) (fs1 fs2 : FS) (td : Str)
    (hext : extract_tarball env.tar fs1 = (some td, fs2)) :
    extractStep env r fs1 = renameStep env r td fs2 := by
  rw [extractStep, hext]

theorem renameStep_file (env : Env) (r : LatestRelease) (tdir : Str) (fs2 : FS) (c : Str)
    (he : fs2 (tdir ++ '-' :: r.build) = some (FNode.file c)) :
    renameStep env r tdir fs2 = (2, fs2) := by
  rw [renameStep, he]

theorem renameStep_ok (env : Env) (r : LatestRelease) (tdir : Str) (fs2 : FS)
    (he : fs2 (tdir ++ '-' :: r.build) = none) :
    renameStep env r tdir fs2 =
      relinkAndFinish env (tdir ++ '-' :: r.build)
        (moveTree fs2 tdir (tdir ++ '-' :: r.build)) := by
  rw [renameStep, he]

theorem relinkAndFinish_ok (env : Env) (newpath : Str) (fs3 : FS)
    (h0 : unlinkOp fs3 curKey curKey = none)
    (h1 : ensure_userdata (lnFS newpath fs3) (joinp newpath sSave) = none)
    (h2 : ensure_userdata (lnFS newpath fs3) (joinp newpath sConfig) = none)
    (h3 : ensure_userdata (lnFS newpath fs3) (joinp newpath sSound) = none)
    (hne21 : joinp newpath sConfig ≠ joinp newpath sSave)
    (hne31 : joinp newpath sSound ≠ joinp newpath sSave)
    (hne32 : joinp newpath sSound ≠ joinp newpath sConfig) :
    relinkAndFinish env newpath fs3 =
      (0, (backup_data env.now env.backupIOFail
        (slFS newpath (ensure_userdata (lnFS newpath fs3)))).2) := by
  have e0 : symlinkOp (unlinkOp fs3 curKey) curKey newpath = some (lnFS newpath fs3) :=
    symlinkOp_free (unlinkOp fs3 curKey) curKey newpath h0
  have e1 := symlinkOp_free (ensure_userdata (lnFS newpath fs3))
    (joinp newpath sSave) (udPath sSave) h1
  have e2 := symlinkOp_free
    (FS.set (ensure_userdata (lnFS newpath fs3)) (joinp newpath sSave)
      (FNode.symlink (udPath sSave)))
    (joinp newpath sConfig) (udPath sConfig)
    (by rw [FS.set_ne _ _ _ hne21]; exact h2)
  have e3 := symlinkOp_free
    (FS.set (FS.set (ensure_userdata (lnFS newpath fs3)) (joinp newpath sSave)
        (FNode.symlink (udPath sSave)))
      (joinp newpath sConfig) (FNode.symlink (udPath sConfig)))
    (joinp newpath sSound) (udPath sSound)
    (by rw [FS.set_ne _ _ _ hne32, FS.set_ne _ _ _ hne31]; exact h3)
  simp only [relinkAndFinish, e0, e1, e2, e3, slFS]

theorem main_crash (env : Env) (u : Bool) (fs : FS)
    (h : get_current_release fs = Resolved.crash) :
    _main env u fs = (1, fs) := by
  rw [_main, h]

theorem main_no_release (env : Env) (u : Bool) (fs : FS) (rl : Option Str)
    (hres : get_current_release fs = Resolved.ret rl)
    (h : get_latest_release env.releases PLATFORM JPRE = none) :
    _main env u fs = (1, fs) := by
  rw [_main, hres]
  show (match get_latest_release env.releases PLATFORM JPRE with
        | none => ((1 : Nat), fs)
        | some rlatest =>
          if rl = some rlatest.build then (0, fs)
          else if u then updateStep env rlatest fs
          else (0, fs)) = (1, fs)
  rw [h]

theorem main_up_to_date (env : Env) (u : Bool) (fs : FS) (r : LatestRelease)
    (h : get_latest_release env.releases PLATFORM JPRE = some r)
    (he : get_current_release fs = Resolved.ret (some r.build)) :
    _main env u fs = (0, fs) := by
  rw [_main, he]
  show (match get_latest_release env.releases PLATFORM JPRE with
        | none => ((1 : Nat), fs)
        | some rlatest =>
          if some r.build = some rlatest.build then (0, fs)
          else if u then updateStep env rlatest fs
          else (0, fs)) = (0, fs)
  rw [h]
  show (if some r.build = some r.build then ((0 : Nat), fs)
        else if u then updateStep env r fs else (0, fs)) = (0, fs)
  rw [if_pos rfl]

theorem main_check_only (env : Env) (fs : FS) (r : LatestRelease) (rl : Option Str)
    (h : get_latest_release env.releases PLATFORM JPRE = some r)
    (hres : get_current_release fs = Resolved.ret rl)
    (hs : rl ≠ some r.build) :
    _main env false fs = (0, fs) := by
  rw [_main, hres]
  show (match get_latest_release env.releases PLATFORM JPRE with
        | none => ((1 : Nat), fs)
        | some rlatest =>
          if rl = some rlatest.build then (0, fs)
          else if false then updateStep env rlatest fs
          else (0, fs)) = (0, fs)
  rw [h]
  show (if rl = some r.build then ((0 : Nat), fs)
        else if false then updateStep env r fs else (0, fs)) = (0, fs)
  rw [if_neg hs]
  rfl

theorem main_stale_update (env : Env) (fs : FS) (r : LatestRelease) (rl : Option Str)
    (h : get_latest_release env.releases PLATFORM JPRE = some r)
    (hres : get_current_release fs = Resolved.ret rl)
    (hs : rl ≠ some r.build) :
    _main env true fs = updateStep env r fs := by
  rw [_main, hres]
  show (match get_latest_release env.releases PLATFORM JPRE with
        | none => ((1 : Nat), fs)
        | some rlatest =>
          if rl = some rlatest.build then (0, fs)
          else if true then updateStep env rlatest fs
          else (0, fs)) = updateStep env r fs
  rw [h]
  show (if rl = some r.build then ((0 : Nat), fs)
        else if true then updateStep env r fs else (0, fs)) = updateStep env r fs
  rw [if_neg hs]
  rfl

/-- Freshness and non-collision conditions for one data entry name `s`
(`save`, `config` or `sound`) during a successful update run. -/
abbrev EntryHyps (env : Env) (r : LatestRelease) (fs : FS) (s : Str) : Prop :=
  dropPfx (newDirName env r ++ sl) (joinp (newDirName env r) s) = some s ∧
  joinp (newDirName env r) s ≠ newDirName env r ∧
  joinp (newDirName env r) s ≠ curKey ∧
  joinp (newDirName env r) s ≠ udRoot ∧
  joinp (newDirName env r) s ≠ udPath sSave ∧
  joinp (newDirName env r) s ≠ udPath sConfig ∧
  joinp (newDirName env r) s ≠ udPath sSound ∧
  lastEntry env.tar.members (tarTop env.tar ++ '/' :: s) = none ∧
  (tarTop env.tar ++ '/' :: s) ≠ dlPath r ∧
  fs (tarTop env.tar ++ '/' :: s) = none ∧
  joinp (newDirName env r) s ≠ bakName env.now ∧
  dropPfx (bakName env.now ++ sl) (joinp (newDirName env r) s) = none

/-- Hypotheses describing a run in which every fatal step succeeds: the
resolver returns (its unguarded stat does not crash) with a build other
than the remote one, a usable release exists, download, extraction,
rename, the relink of `current` and the three symlink creations all
succeed, and the fresh paths do not collide with the paths the run reads
or writes later. -/
structure SuccessRun (env : Env) (r : LatestRelease) (fs : FS) : Prop where
  hlatest : get_latest_release env.releases PLATFORM JPRE = some r
  hnoc : get_current_release fs ≠ Resolved.crash
  hstale : get_current_release fs ≠ Resolved.ret (some r.build)
  hdl : env.dlStatus = HStatus.ok
  hcor : env.tar.corrupt = false
  hnorm : normp (tarTop env.tar) = tarTop env.tar ∧
    normp (newDirName env r) = newDirName env r
  htop_mem : lastEntry env.tar.members (tarTop env.tar) = some FNode.dir
  htop_dl : tarTop env.tar ≠ dlPath r
  htop_fs : fs (tarTop env.tar) = none
  hnew_dl : newDirName env r ≠ dlPath r
  hnew_mem : lastEntry env.tar.members (newDirName env r) = none
  hnew_fs : fs (newDirName env r) = none
  hnew_cur : newDirName env r ≠ curKey
  hnew_ud : newDirName env r ≠ udRoot ∧ newDirName env r ≠ udPath sSave ∧
    newDirName env r ≠ udPath sConfig ∧ newDirName env r ≠ udPath sSound
  hnew_bak : newDirName env r ≠ bakName env.now ∧
    dropPfx (bakName env.now ++ sl) (newDirName env r) = none
  hcur_bak : curKey ≠ bakName env.now ∧ dropPfx (bakName env.now ++ sl) curKey = none
  hcur_dl : curKey ≠ dlPath r
  hcur_mem : lastEntry env.tar.members curKey = none
  hcur_top : curKey ≠ tarTop env.tar ∧ dropPfx (tarTop env.tar ++ sl) curKey = none ∧
    dropPfx (newDirName env r ++ sl) curKey = none
  hcur_node : fs curKey ≠ some FNode.dir
  hsv : EntryHyps env r fs sSave
  hcf : EntryHyps env r fs sConfig
  hsn : EntryHyps env r fs sSound
  hp21 : joinp (newDirName env r) sConfig ≠ joinp (newDirName env r) sSave
  hp31 : joinp (newDirName env r) sSound ≠ joinp (newDirName env r) sSave
  hp32 : joinp (newDirName env r) sSound ≠ joinp (newDirName env r) sConfig

theorem entry_chain (env : Env) (r : LatestRelease) (fs : FS) (s : Str)
    (hs : EntryHyps env r fs s) :
    ensure_userdata (lnFS (newDirName env r)
      (moveTree (extractMembers (dlFS env r fs) env.tar.members)
        (tarTop env.tar) (newDirName env r))) (joinp (newDirName env r) s) = none := by
  obtain ⟨e1, e2, e3, e4, e5, e6, e7, e8, e9, e10, _, _⟩ := hs
  rw [ensure_userdata_other _ e4 e5 e6 e7, lnFS, FS.set_ne _ _ _ e3, unlinkOp_ne _ _ e3,
    moveTree_under_dst _ _ _ e2 e1, extractMembers_apply, e8]
  show dlFS env r fs (tarTop env.tar ++ '/' :: s) = none
  rw [dlFS, FS.set_ne _ _ _ e9, FS.set_ne _ _ _ e9, e10]

theorem main_update_run (env : Env) (r : LatestRelease) (fs : FS)
    (h : SuccessRun env r fs) :
    _main env true fs = (0, finalFS env r fs) := by
  have hfs1top : dlFS env r fs (tarTop env.tar) = none := by
    rw [dlFS, FS.set_ne _ _ _ h.htop_dl, FS.set_ne _ _ _ h.htop_dl, h.htop_fs]
  have hfs1topn : dlFS env r fs (normp (tarTop env.tar)) = none := by
    rw [h.hnorm.1]
    exact hfs1top
  have hfs2new : extractMembers (dlFS env r fs) env.tar.members (newDirName env r) = none := by
    rw [extractMembers_apply, h.hnew_mem]
    show dlFS env r fs (newDirName env r) = none
    rw [dlFS, FS.set_ne _ _ _ h.hnew_dl, FS.set_ne _ _ _ h.hnew_dl, h.hnew_fs]
  have hfs3cur : moveTree (extractMembers (dlFS env r fs) env.tar.members)
      (tarTop env.tar) (newDirName env r) curKey = fs curKey := by
    rw [moveTree_other _ _ _ (Ne.symm h.hnew_cur) h.hcur_top.2.2 h.hcur_top.1
      h.hcur_top.2.1, extractMembers_apply, h.hcur_mem]
    show dlFS env r fs curKey = fs curKey
    rw [dlFS, FS.set_ne _ _ _ h.hcur_dl, FS.set_ne _ _ _ h.hcur_dl]
  have hunl : unlinkOp (moveTree (extractMembers (dlFS env r fs) env.tar.members)
      (tarTop env.tar) (newDirName env r)) curKey curKey = none := by
    apply unlinkOp_clear
    rw [hfs3cur]
    exact h.hcur_node
  cases hloc : get_current_release fs with
  | crash => exact absurd hloc h.hnoc
  | ret rl =>
    have hne : rl ≠ some r.build := by
      intro he
      exact h.hstale (by rw [hloc, he])
    rw [main_stale_update env fs r rl h.hlatest hloc hne,
      updateStep_ok env r fs h.hdl,
      extractStep_ok env r _ _ _ (extract_tarball_ok env.tar (dlFS env r fs) h.hcor hfs1topn),
      renameStep_ok env r _ _ (by
        rw [show tarTop env.tar ++ '-' :: r.build = newDirName env r from rfl]
        exact hfs2new)]
    rw [show tarTop env.tar ++ '-' :: r.build = newDirName env r from rfl]
    rw [relinkAndFinish_ok env _ _ hunl (entry_chain env r fs sSave h.hsv)
      (entry_chain env r fs sConfig h.hcf) (entry_chain env r fs sSound h.hsn)
      h.hp21 h.hp31 h.hp32]
    rfl

theorem main_update_lookups (env : Env) (r : LatestRelease) (fs : FS)
    (h : SuccessRun env r fs) :
    (_main env true fs).1 = 0 ∧
    (_main env true fs).2 curKey = some (FNode.symlink (newDirName env r)) ∧
    (_main env true fs).2 (newDirName env r) = some FNode.dir ∧
    (_main env true fs).2 (joinp (newDirName env r) sSave) =
      some (FNode.symlink (udPath sSave)) ∧
    (_main env true fs).2 (joinp (newDirName env r) sConfig) =
      some (FNode.symlink (udPath sConfig)) ∧
    (_main env true fs).2 (joinp (newDirName env r) sSound) =
      some (FNode.symlink (udPath sSound)) := by
  obtain ⟨s1, s2, s3, s4, s5, s6, s7, s8, s9, s10, s11, s12⟩ := h.hsv
  obtain ⟨c1, c2, c3, c4, c5, c6, c7, c8, c9, c10, c11, c12⟩ := h.hcf
  obtain ⟨o1, o2, o3, o4, o5, o6, o7, o8, o9, o10, o11, o12⟩ := h.hsn
  rw [main_update_run env r fs h]
  refine ⟨rfl, ?_, ?_, ?_, ?_, ?_⟩
  · show finalFS env r fs curKey = some (FNode.symlink (newDirName env r))
    rw [finalFS, backup_data_other _ _ _ h.hcur_bak.1 h.hcur_bak.2, slFS,
      FS.set_ne _ _ _ (Ne.symm o3), FS.set_ne _ _ _ (Ne.symm c3),
      FS.set_ne _ _ _ (Ne.symm s3),
      ensure_userdata_other _ (by decide) (by decide) (by decide) (by decide),
      lnFS, FS.set_self]
  · show finalFS env r fs (newDirName env r) = some FNode.dir
    rw [finalFS, backup_data_other _ _ _ h.hnew_bak.1 h.hnew_bak.2, slFS,
      FS.set_ne _ _ _ (Ne.symm o2), FS.set_ne _ _ _ (Ne.symm c2),
      FS.set_ne _ _ _ (Ne.symm s2),
      ensure_userdata_other _ h.hnew_ud.1 h.hnew_ud.2.1 h.hnew_ud.2.2.1 h.hnew_ud.2.2.2,
      lnFS, FS.set_ne _ _ _ h.hnew_cur, unlinkOp_ne _ _ h.hnew_cur,
      moveTree_dst, extractMembers_apply, h.htop_mem]
  · show finalFS env r fs (joinp (newDirName env r) sSave) = some (FNode.symlink (udPath sSave))
    rw [finalFS, backup_data_other _ _ _ s11 s12, slFS,
      FS.set_ne _ _ _ (Ne.symm h.hp31), FS.set_ne _ _ _ (Ne.symm h.hp21), FS.set_self]
  · show finalFS env r fs (joinp (newDirName env r) sConfig) =
      some (FNode.symlink (udPath sConfig))
    rw [finalFS, backup_data_other _ _ _ c11 c12, slFS,
      FS.set_ne _ _ _ (Ne.symm h.hp32), FS.set_self]
  · show finalFS env r fs (joinp (newDirName env r) sSound) =
      some (FNode.symlink (udPath sSound))
    rw [finalFS, backup_data_other _ _ _ o11 o12, slFS, FS.set_self]

/-- Concrete asset for witnesses. -/
def wAsset : Asset := ⟨"Linux_x64 Tiles".data, "cdda.tar.gz".data, "http:u".data⟩

/-- Concrete release for witnesses. -/
def wRelease : Release := ⟨"cdda-jenkins-b8000".data, [wAsset]⟩

/-- Concrete archive for witnesses: one top-level directory with a file. -/
def wTar : Tarball :=
  ⟨false, "cataclysmdda-0.D/readme.txt".data,
    [("cataclysmdda-0.D".data, FNode.dir),
     ("cataclysmdda-0.D/readme.txt".data, FNode.file ("hi".data))]⟩

/-- Concrete environment of a successful update run. -/
def wEnv : Env := ⟨[wRelease], HStatus.ok, "bytes".data, wTar, false, "20191001-120000".data⟩

/-- The selected release produced by `get_latest_release` on `wEnv`. -/
def wR : LatestRelease := ⟨"8000".data, "cdda-jenkins-b8000".data, wAsset⟩

/-- Concrete starting filesystem: stale install at build 7990 whose
directory exists (so the resolver's unguarded stat succeeds), userdata
present. -/
def wFS : FS := fun q =>
  if q = curKey then some (FNode.symlink ("cataclysmdda-0.D-b7990".data))
  else if q = "cataclysmdda-0.D-b7990".data then some FNode.dir
  else if q = udRoot then some FNode.dir
  else if q = udPath sSave then some FNode.dir
  else if q = udPath sConfig then some FNode.dir
  else if q = udPath sSound then some FNode.dir
  else none

/-- Claim C1: after a successful run with `--update` (download, extraction
and rename all succeed), the `current` symlink points in one hop at the
renamed versioned directory — a directory node, whose name is the
archive's top-level name suffixed with the new remote build identifier —
and that directory contains `save`, `config` and `sound` entries that are
symlink nodes (not file or directory nodes) whose targets are the
corresponding subdirectories of `./userdata`. -/
theorem C1_successful_update_layout (env : Env) (r : LatestRelease) (fs : FS)
    (h : SuccessRun env r fs) :
    (_main env true fs).2 curKey = some (FNode.symlink (newDirName env r)) ∧
    newDirName env r = tarTop env.tar ++ '-' :: r.build ∧
    (_main env true fs).2 (newDirName env r) = some FNode.dir ∧
    (_main env true fs).2 (joinp (newDirName env r) sSave) =
      some (FNode.symlink (udPath sSave)) ∧
    (_main env true fs).2 (joinp (newDirName env r) sConfig) =
      some (FNode.symlink (udPath sConfig)) ∧
    (_main env true fs).2 (joinp (newDirName env r) sSound) =
      some (FNode.symlink (udPath sSound)) := by
  obtain ⟨-, h2, h3, h4, h5, h6⟩ := main_update_lookups env r fs h
  exact ⟨h2, rfl, h3, h4, h5, h6⟩

theorem C1_witness :
    (_main wEnv true wFS).2 curKey = some (FNode.symlink (newDirName wEnv wR)) ∧
    newDirName wEnv wR = tarTop wEnv.tar ++ '-' :: wR.build ∧
    (_main wEnv true wFS).2 (newDirName wEnv wR) = some FNode.dir ∧
    (_main wEnv true wFS).2 (joinp (newDirName wEnv wR) sSave) =
      some (FNode.symlink (udPath sSave)) ∧
    (_main wEnv true wFS).2 (joinp (newDirName wEnv wR) sConfig) =
      some (FNode.symlink (udPath sConfig)) ∧
    (_main wEnv true wFS).2 (joinp (newDirName wEnv wR) sSound) =
      some (FNode.symlink (udPath sSound)) :=
  C1_successful_update_layout wEnv wR wFS (by constructor <;> decide)

/-- Claim C2 (amended): when the build parsed from the `current` symlink
equals the remote latest build AND the resolver's unguarded
`os.stat('./current')` succeeds (the link's target exists), `_main`
performs no filesystem mutation and exits 0, with or without `--update`;
when the parsed link dangles, the stat raises uncaught and the process
exits 1 instead — still without filesystem mutation. -/
theorem C2_up_to_date_no_mutation :
    (∀ (env : Env) (u : Bool) (fs : FS) (r : LatestRelease) (b : Str),
      get_latest_release env.releases PLATFORM JPRE = some r →
      get_current_release fs = Resolved.ret (some b) → b = r.build →
      _main env u fs = (0, fs)) ∧
    (∀ (env : Env) (u : Bool) (fs : FS),
      get_current_release fs = Resolved.crash → _main env u fs = (1, fs)) := by
  constructor
  · intro env u fs r b hl hc hb
    exact main_up_to_date env u fs r hl (by rw [hc, hb])
  · intro env u fs hcr
    exact main_crash env u fs hcr

/-- Filesystem already at build 8000 (the remote latest of `wEnv`), with
the build directory present so the stat succeeds. -/
def wFS2 : FS := fun q =>
  if q = curKey then some (FNode.symlink ("cataclysmdda-0.D-b8000".data))
  else if q = "cataclysmdda-0.D-b8000".data then some FNode.dir
  else wFS q

/-- Filesystem whose `current` parses to build 8000 but dangles: the
target directory does not exist. -/
def wFSd : FS := fun q =>
  if q = curKey then some (FNode.symlink ("cataclysmdda-0.D-b8000".data)) else none

/-- Counterexample to claim C2 as stated: at `wFSd` the `current` symlink
parses to exactly the remote latest build (8000), yet the process exit
code is 1, not 0 — line 118's `os.stat('./current')` follows the dangling
link and raises an uncaught `FileNotFoundError`. -/
theorem C2_counterexample :
    wFSd curKey = some (FNode.symlink ("cataclysmdda-0.D-b8000".data)) ∧
    (parseReleaseName ("cataclysmdda-0.D-b8000".data)).map (fun vb => vb.2) =
      some ("8000".data) ∧
    (get_latest_release wEnv.releases PLATFORM JPRE).map (fun x => x.build) =
      some ("8000".data) ∧
    (_main wEnv true wFSd).1 = 1 ∧
    (_main wEnv false wFSd).1 = 1 := by
  decide

theorem C2_witness :
    _main wEnv true wFS2 = (0, wFS2) ∧ _main wEnv false wFS2 = (0, wFS2) :=
  ⟨C2_up_to_date_no_mutation.1 wEnv true wFS2 wR ("8000".data) (by decide) (by decide) rfl,
   C2_up_to_date_no_mutation.1 wEnv false wFS2 wR ("8000".data) (by decide) (by decide) rfl⟩

/-- Claim C3: when the archive's top-level directory name already exists
under the installation root (`os.path.exists` on its realpath), the
extraction returns the error sentinel with the filesystem unchanged (so
the existing directory is untouched), and in an update run that got past
the resolver `_main` then exits with code 2 with the only prior mutation
being the downloaded file — in particular the `current` symlink is left
untouched. -/
theorem C3_extract_already_exists :
    (∀ (t : Tarball) (fs2 : FS), t.corrupt = false →
      FS.live fs2 (normp (tarTop t)) = true →
      extract_tarball t fs2 = (none, fs2)) ∧
    (∀ (env : Env) (r : LatestRelease) (fs : FS) (rl : Option Str),
      get_latest_release env.releases PLATFORM JPRE = some r →
      get_current_release fs = Resolved.ret rl →
      rl ≠ some r.build →
      env.dlStatus = HStatus.ok →
      env.tar.corrupt = false →
      fs (normp (tarTop env.tar)) = some FNode.dir →
      normp (tarTop env.tar) ≠ dlPath r →
      curKey ≠ dlPath r →
      _main env true fs = (2, dlFS env r fs) ∧ dlFS env r fs curKey = fs curKey) := by
  constructor
  · intro t fs2 hc he
    exact extract_tarball_blocked t fs2 hc he
  · intro env r fs rl hl hres hne hdl hc hex htd hcd
    have hblocked : extract_tarball env.tar (dlFS env r fs) = (none, dlFS env r fs) := by
      apply extract_tarball_blocked env.tar _ hc
      apply live_of_dir
      rw [dlFS, FS.set_ne _ _ _ htd, FS.set_ne _ _ _ htd]
      exact hex
    constructor
    · rw [main_stale_update env fs r rl hl hres hne, updateStep_ok env r fs hdl,
        extractStep_fail env r _ _ hblocked]
    · rw [dlFS, FS.set_ne _ _ _ hcd, FS.set_ne _ _ _ hcd]

/-- Starting filesystem in which the archive's top-level directory name is
already taken. -/
def wFS3 : FS := fun q =>
  if q = "cataclysmdda-0.D".data then some FNode.dir else wFS q

theorem C3_witness :
    extract_tarball wTar wFS3 = (none, wFS3) ∧
    _main wEnv true wFS3 = (2, dlFS wEnv wR wFS3) ∧
    dlFS wEnv wR wFS3 curKey = wFS3 curKey :=
  ⟨C3_extract_already_exists.1 wTar wFS3 (by decide) (by decide),
   (C3_extract_already_exists.2 wEnv wR wFS3 (some ("7990".data)) (by decide) (by decide)
     (by decide) (by decide) (by decide) (by decide) (by decide) (by decide)).1,
   (C3_extract_already_exists.2 wEnv wR wFS3 (some ("7990".data)) (by decide) (by decide)
     (by decide) (by decide) (by decide) (by decide) (by decide) (by decide)).2⟩

/-- Claim C4: every symlink target name of the pattern shape — the literal
product part, a version token of alphanumerics and dots, and an optional
literal `b` before the numeric build token (all case-insensitively, as the
regex carries `re.I`) — is parsed to exactly its version and build groups;
every name without such a decomposition yields `none`; a missing or
non-symlink (unreadable) `current`, or an unparsable target, makes
`get_current_release` return the Unknown result (`Resolved.ret none`)
without failing — these paths return before the unguarded stat of
line 118 — and the caller then proceeds normally as a first install
(exit 0 on a check run). -/
theorem C4_resolver_exact :
    (∀ s v b : Str, ReleasePatternMatch s v b → parseReleaseName s = some (v, b)) ∧
    (∀ s : Str, (∀ v b : Str, ¬ReleasePatternMatch s v b) → parseReleaseName s = none) ∧
    (∀ fs : FS, fs curKey = none → get_current_release fs = Resolved.ret none) ∧
    (∀ (fs : FS) (c : Str), fs curKey = some (FNode.file c) →
      get_current_release fs = Resolved.ret none) ∧
    (∀ fs : FS, fs curKey = some FNode.dir →
      get_current_release fs = Resolved.ret none) ∧
    (∀ (fs : FS) (t : Str), fs curKey = some (FNode.symlink t) →
      parseReleaseName t = none → get_current_release fs = Resolved.ret none) ∧
    (∀ (env : Env) (fs : FS) (r : LatestRelease),
      get_current_release fs = Resolved.ret none →
      get_latest_release env.releases PLATFORM JPRE = some r →
      _main env false fs = (0, fs)) := by
  refine ⟨fun s v b h => parse_of_match h, ?_, ?_, ?_, ?_, ?_, ?_⟩
  · intro s hno
    cases hp : parseReleaseName s with
    | none => rfl
    | some vb =>
      obtain ⟨v, b⟩ := vb
      exact absurd (match_of_parse hp) (hno v b)
  · intro fs h
    have h' : fs (normp CURRENT_LINK) = none := h
    simp [get_current_release, readlinkFS, h']
  · intro fs c h
    have h' : fs (normp CURRENT_LINK) = some (FNode.file c) := h
    simp [get_current_release, readlinkFS, h']
  · intro fs h
    have h' : fs (normp CURRENT_LINK) = some FNode.dir := h
    simp [get_current_release, readlinkFS, h']
  · intro fs t h hp
    have h' : fs (normp CURRENT_LINK) = some (FNode.symlink t) := h
    simp [get_current_release, readlinkFS, h', hp]
  · intro env fs r hn hl
    exact main_check_only env fs r none hl hn (by simp)

theorem C4_witness :
    parseReleaseName ("cataclysmdda-0.D-b8000".data) = some ("0.D".data, "8000".data) ∧
    parseReleaseName ("somedir-123".data) = none ∧
    get_current_release (fun _ => none) = Resolved.ret none ∧
    _main wEnv false (fun _ => none) = (0, fun _ => none) :=
  ⟨C4_resolver_exact.1 _ _ _
      ⟨PRODPAT, "b".data, by decide, by decide, by decide, by decide, by decide, by decide,
        by decide⟩,
   C4_resolver_exact.2.1 ("somedir-123".data)
     (fun v b hm => by
       have h1 := parse_of_match hm
       rw [show parseReleaseName ("somedir-123".data) = none from by decide] at h1
       exact Option.noConfusion h1),
   C4_resolver_exact.2.2.1 (fun _ => none) rfl,
   C4_resolver_exact.2.2.2.2.2.2 wEnv (fun _ => none) wR rfl (by decide)⟩

/-- Claim C5: the exit code is 0 on an up-to-date, check-only or fully
successful update run; 1 when no remote release has an asset whose label
matches the requested platform; and 2 when the download, the extraction or
the directory rename (here onto an occupied non-directory destination,
which `rename(2)` refuses with `ENOTDIR`) fails during an update. -/
theorem C5_exit_codes :
    (∀ (env : Env) (u : Bool) (fs : FS),
      (∀ rel ∈ env.releases, matchingAssets PLATFORM rel = []) →
      (_main env u fs).1 = 1) ∧
    (∀ (env : Env) (u : Bool) (fs : FS) (r : LatestRelease),
      get_latest_release env.releases PLATFORM JPRE = some r →
      get_current_release fs = Resolved.ret (some r.build) →
      (_main env u fs).1 = 0) ∧
    (∀ (env : Env) (fs : FS) (r : LatestRelease) (rl : Option Str),
      get_latest_release env.releases PLATFORM JPRE = some r →
      get_current_release fs = Resolved.ret rl → rl ≠ some r.build →
      (_main env false fs).1 = 0) ∧
    (∀ (env : Env) (fs : FS) (r : LatestRelease) (rl : Option Str),
      get_latest_release env.releases PLATFORM JPRE = some r →
      get_current_release fs = Resolved.ret rl → rl ≠ some r.build →
      env.dlStatus = HStatus.err →
      (_main env true fs).1 = 2) ∧
    (∀ (env : Env) (fs : FS) (r : LatestRelease) (rl : Option Str),
      get_latest_release env.releases PLATFORM JPRE = some r →
      get_current_release fs = Resolved.ret rl → rl ≠ some r.build →
      env.dlStatus = HStatus.ok →
      (extract_tarball env.tar (dlFS env r fs)).1 = none →
      (_main env true fs).1 = 2) ∧
    (∀ (env : Env) (fs : FS) (r : LatestRelease) (rl : Option Str) (c : Str),
      get_latest_release env.releases PLATFORM JPRE = some r →
      get_current_release fs = Resolved.ret rl → rl ≠ some r.build →
      env.dlStatus = HStatus.ok →
      env.tar.corrupt = false →
      dlFS env r fs (normp (tarTop env.tar)) = none →
      extractMembers (dlFS env r fs) env.tar.members (newDirName env r) =
        some (FNode.file c) →
      (_main env true fs).1 = 2) ∧
    (∀ (env : Env) (r : LatestRelease) (fs : FS), SuccessRun env r fs →
      (_main env true fs).1 = 0) := by
  refine ⟨?_, ?_, ?_, ?_, ?_, ?_, ?_⟩
  · intro env u fs hall
    cases hloc : get_current_release fs with
    | crash => rw [main_crash env u fs hloc]
    | ret rl =>
      rw [main_no_release env u fs rl hloc
        ((get_latest_none_iff env.releases PLATFORM JPRE).mpr hall)]
  · intro env u fs r hl hc
    rw [main_up_to_date env u fs r hl hc]
  · intro env fs r rl hl hres hs
    rw [main_check_only env fs r rl hl hres hs]
  · intro env fs r rl hl hres hs herr
    rw [main_stale_update env fs r rl hl hres hs, updateStep_err env r fs herr]
  · intro env fs r rl hl hres hs hok hext
    have hx : extract_tarball env.tar (dlFS env r fs) =
        (none, (extract_tarball env.tar (dlFS env r fs)).2) := by
      rw [← hext]
    rw [main_stale_update env fs r rl hl hres hs, updateStep_ok env r fs hok,
      extractStep_fail env r _ _ hx]
  · intro env fs r rl c hl hres hs hok hcor htop hfile
    rw [main_stale_update env fs r rl hl hres hs, updateStep_ok env r fs hok,
      extractStep_ok env r _ _ _ (extract_tarball_ok env.tar (dlFS env r fs) hcor htop),
      renameStep_file env r _ _ c (by
        rw [show tarTop env.tar ++ '-' :: r.build = newDirName env r from rfl]
        exact hfile)]
  · intro env r fs h
    exact (main_update_lookups env r fs h).1

/-- Environment in which no remote release matches the platform. -/
def wEnvN : Env := ⟨[], HStatus.ok, "bytes".data, wTar, false, "20191001-120000".data⟩

/-- Environment in which the asset download fails with a bad status. -/
def wEnvE : Env :=
  ⟨[wRelease], HStatus.err, "bytes".data, wTar, false, "20191001-120000".data⟩

/-- Starting filesystem in which a regular file occupies the rename
destination. -/
def wFS4 : FS := fun q =>
  if q = "cataclysmdda-0.D-8000".data then some (FNode.file ("junk".data)) else wFS q

theorem C5_witness :
    (_main wEnvN true wFS).1 = 1 ∧
    (_main wEnv true wFS2).1 = 0 ∧
    (_main wEnv false wFS).1 = 0 ∧
    (_main wEnvE true wFS).1 = 2 ∧
    (_main wEnv true wFS3).1 = 2 ∧
    (_main wEnv true wFS4).1 = 2 ∧
    (_main wEnv true wFS).1 = 0 :=
  ⟨C5_exit_codes.1 wEnvN true wFS (by decide),
   C5_exit_codes.2.1 wEnv true wFS2 wR (by decide) (by decide),
   C5_exit_codes.2.2.1 wEnv wFS wR (some ("7990".data)) (by decide) (by decide) (by decide),
   C5_exit_codes.2.2.2.1 wEnvE wFS wR (some ("7990".data)) (by decide) (by decide)
     (by decide) (by decide),
   C5_exit_codes.2.2.2.2.1 wEnv wFS3 wR (some ("7990".data)) (by decide) (by decide)
     (by decide) (by decide) (by decide),
   C5_exit_codes.2.2.2.2.2.1 wEnv wFS4 wR (some ("7990".data)) ("junk".data) (by decide)
     (by decide) (by decide) (by decide) (by decide) (by decide) (by decide),
   C5_exit_codes.2.2.2.2.2.2 wEnv wR wFS (by constructor <;> decide)⟩

/-- Claim C6: `backup_data` copies the userdata tree, node for node, into
a fresh directory named `save-<formatted UTC timestamp>` at the
installation root — in particular a symlink inside the tree is copied as
the same symlink node, never dereferenced; a copy failure returns the
`none` sentinel, and the orchestrator treats that as non-fatal: the
update still finishes with exit code 0. -/
theorem C6_backup_semantics :
    (∀ (now : Str) (io : Bool) (fs : FS), io = false → fs (bakName now) = none →
      fs udRoot = some FNode.dir →
      (backup_data now io fs).1 = some (bakName now) ∧
      bakName now = "save-".data ++ now ∧
      (backup_data now io fs).2 (bakName now) = fs udRoot ∧
      (∀ rel : Str, (backup_data now io fs).2 (bakName now ++ '/' :: rel) =
        fs (udRoot ++ '/' :: rel)) ∧
      (∀ (rel t : Str), fs (udRoot ++ '/' :: rel) = some (FNode.symlink t) →
        (backup_data now io fs).2 (bakName now ++ '/' :: rel) =
          some (FNode.symlink t))) ∧
    (∀ (now : Str) (fs : FS), (backup_data now true fs).1 = none) ∧
    (∀ (env : Env) (r : LatestRelease) (fs : FS), SuccessRun env r fs →
      env.backupIOFail = true → (_main env true fs).1 = 0) := by
  refine ⟨?_, ?_, ?_⟩
  · intro now io fs hio hbak hroot
    have hroot' : fs (normp USERDATA_DIR) = some FNode.dir := hroot
    have hsucc := backup_data_success hio hbak hroot'
    have hdropfact : ∀ rel : Str,
        dropPfx (bakName now ++ sl) (bakName now ++ '/' :: rel) = some rel := by
      intro rel
      have h1 := dropPfx_append (bakName now ++ sl) rel
      rw [List.append_assoc] at h1
      simpa [sl] using h1
    refine ⟨?_, ?_, ?_, ?_, ?_⟩
    · rw [hsucc]
    · rfl
    · rw [hsucc]
      exact copyTree_dst fs _ _
    · intro rel
      rw [hsucc]
      show copyTree fs (normp USERDATA_DIR) (bakName now) (bakName now ++ '/' :: rel) =
        fs (udRoot ++ '/' :: rel)
      rw [copyTree_under_dst fs _ _ (append_cons_ne _ _ _) (hdropfact rel)]
      rfl
    · intro rel t hsym
      rw [hsucc]
      show copyTree fs (normp USERDATA_DIR) (bakName now) (bakName now ++ '/' :: rel) =
        some (FNode.symlink t)
      rw [copyTree_under_dst fs _ _ (append_cons_ne _ _ _) (hdropfact rel)]
      exact hsym
  · intro now fs
    rw [backup_data_ioFail now fs]
  · intro env r fs h _
    exact (main_update_lookups env r fs h).1

/-- Environment whose backup copy fails. -/
def wEnvB : Env :=
  ⟨[wRelease], HStatus.ok, "bytes".data, wTar, true, "20191001-120000".data⟩

/-- Small userdata tree containing a symlink, for the backup witness. -/
def wFS6 : FS := fun q =>
  if q = udRoot then some FNode.dir
  else if q = udPath sSave then some (FNode.symlink ("x".data))
  else none

theorem C6_witness :
    (backup_data ("20191001-120000".data) false wFS6).1 =
      some (bakName ("20191001-120000".data)) ∧
    bakName ("20191001-120000".data) = "save-".data ++ "20191001-120000".data ∧
    (backup_data ("20191001-120000".data) false wFS6).2
      (bakName ("20191001-120000".data) ++ '/' :: sSave) =
      some (FNode.symlink ("x".data)) ∧
    (backup_data ("20191001-120000".data) true wFS6).1 = none ∧
    (_main wEnvB true wFS).1 = 0 :=
  ⟨(C6_backup_semantics.1 ("20191001-120000".data) false wFS6 rfl (by decide) (by decide)).1,
   (C6_backup_semantics.1 ("20191001-120000".data) false wFS6 rfl (by decide)
     (by decide)).2.1,
   (C6_backup_semantics.1 ("20191001-120000".data) false wFS6 rfl (by decide)
     (by decide)).2.2.2.2 sSave ("x".data) (by decide),
   C6_backup_semantics.2.1 ("20191001-120000".data) wFS6,
   C6_backup_semantics.2.2 wEnvB wR wFS (by constructor <;> decide) rfl⟩

/-- Filesystem with only the `save` subdirectory of userdata present —
the failing input of claim C7. -/
def c7FS : FS := fun q =>
  if q = udRoot then some FNode.dir
  else if q = udPath sSave then some FNode.dir
  else none

/-- Claim C7 (code bug, evaluated at the failing input): the source's own
log line says it is "Creating missing userdata directories", but because
`os.makedirs` is called without `exist_ok` inside a single `try`, a run in
which `save` already exists while `config` and `sound` are missing raises
`FileExistsError` at the very first call; the exception is caught and the
two missing directories are never created, while `save` is kept. -/
theorem C7_userdata_subset_bug :
    ensure_userdata c7FS (udPath sConfig) = none ∧
    ensure_userdata c7FS (udPath sSound) = none ∧
    ensure_userdata c7FS (udPath sSave) = some FNode.dir ∧
    c7FS (udPath sConfig) = none ∧
    c7FS (udPath sSound) = none := by
  decide

/-- Claim C8: `get_latest_release` returns the first release of the
sequence having a case-insensitively matching asset label, with `build`
equal to its tag name with every occurrence of the fixed tag part removed
(`str.replace`), `tasset` the first matching asset; it returns the
sentinel `none` exactly when no release matches; and when the tag is the
fixed part followed by a remainder in which that part does not occur
again, the `build` is exactly the remainder — the tag with the fixed part
stripped. -/
theorem C8_release_selection :
    (∀ (rels : List Release) (pl pre : Str),
      get_latest_release rels pl pre = none ↔
        ∀ rel ∈ rels, matchingAssets pl rel = []) ∧
    (∀ (pl pre : Str) (pres : List Release) (rel : Release) (post : List Release)
        (a : Asset) (arest : List Asset),
      (∀ q ∈ pres, matchingAssets pl q = []) → matchingAssets pl rel = a :: arest →
      get_latest_release (pres ++ rel :: post) pl pre =
        some ⟨pyReplace pre [] rel.tag_name, rel.tag_name, a⟩) ∧
    (∀ pre rest : Str, pre ≠ [] → occurs pre rest = false →
      pyReplace pre [] (pre ++ rest) = rest) :=
  ⟨fun rels pl pre => get_latest_none_iff rels pl pre,
   fun pl pre pres rel post a arest hpres hm =>
     get_latest_first_match pl pre pres rel post a arest hpres hm,
   fun pre rest h1 h2 => by
     have h3 := pyReplace_strip ([] : Str) h1 h2
     simpa using h3⟩

theorem C8_witness :
    get_latest_release [wRelease] PLATFORM JPRE =
      some ⟨pyReplace JPRE [] wRelease.tag_name, wRelease.tag_name, wAsset⟩ ∧
    get_latest_release [] PLATFORM JPRE = none ∧
    pyReplace JPRE [] (JPRE ++ "8000".data) = "8000".data :=
  ⟨by
    have h := C8_release_selection.2.1 PLATFORM JPRE [] wRelease [] wAsset []
      (by decide) (by decide)
    simpa using h,
   (C8_release_selection.1 [] PLATFORM JPRE).mpr (by decide),
   C8_release_selection.2.2 JPRE ("8000".data) (by decide) (by decide)⟩

/-- Claim C9: on a non-success HTTP status `download_release` returns the
failure sentinel, but the destination was already opened for writing
before the status check, so the failed fetch leaves a zero-byte file at
the destination path, truncating any pre-existing file of that name even
though no payload was received. -/
theorem C9_failed_download_truncates (status : HStatus) (content : Str) (fs : FS)
    (url filename save_pre : Str) (hs : status = HStatus.err) :
    download_release status content fs url filename save_pre =
      (none, FS.set fs (normp (joinp save_pre filename)) (FNode.file [])) ∧
    (download_release status content fs url filename save_pre).2
      (normp (joinp save_pre filename)) = some (FNode.file []) ∧
    (∀ c : Str, fs (normp (joinp save_pre filename)) = some (FNode.file c) →
      (download_release status content fs url filename save_pre).2
        (normp (joinp save_pre filename)) = some (FNode.file [])) := by
  have he := download_release_err status content fs url filename save_pre hs
  refine ⟨he, ?_, fun c _ => ?_⟩
  · rw [he]
    exact FS.set_self _ _ _
  · rw [he]
    exact FS.set_self _ _ _

/-- Filesystem holding a pre-existing nonempty file at the download
destination. -/
def wFS9 : FS := fun q =>
  if q = "cdda.tar.gz".data then some (FNode.file ("old-bytes".data)) else none

theorem C9_witness :
    wFS9 (normp (joinp dotSlash ("cdda.tar.gz".data))) =
      some (FNode.file ("old-bytes".data)) ∧
    download_release HStatus.err ("bytes".data) wFS9 ("http:u".data)
      ("cdda.tar.gz".data) dotSlash =
      (none, FS.set wFS9 (normp (joinp dotSlash ("cdda.tar.gz".data))) (FNode.file [])) ∧
    (download_release HStatus.err ("bytes".data) wFS9 ("http:u".data)
      ("cdda.tar.gz".data) dotSlash).2 (normp (joinp dotSlash ("cdda.tar.gz".data))) =
      some (FNode.file []) :=
  ⟨by decide,
   (C9_failed_download_truncates HStatus.err ("bytes".data) wFS9 ("http:u".data)
     ("cdda.tar.gz".data) dotSlash rfl).1,
   (C9_failed_download_truncates HStatus.err ("bytes".data) wFS9 ("http:u".data)
     ("cdda.tar.gz".data) dotSlash rfl).2.2 ("old-bytes".data) (by decide)⟩

/-- Claim C10: the update renames the extracted top-level directory to
`<topdir>-<build>` with no literal `b` before the build number, and since
the resolver's `b` is optional, `get_current_release` run on the final
state returns exactly the remote build string that was just installed
(its stat succeeds: the new `current` points at the really existing
renamed directory). -/
theorem C10_roundtrip (env : Env) (r : LatestRelease) (fs : FS) (v : Str)
    (h : SuccessRun env r fs)
    (htop : tarTop env.tar = PRODPAT ++ v) (hv : v ≠ []) (hvc : v.all isVerChar = true)
    (hb : r.build ≠ []) (hbd : r.build.all Char.isDigit = true) :
    newDirName env r = tarTop env.tar ++ '-' :: r.build ∧
    get_current_release ((_main env true fs).2) = Resolved.ret (some r.build) := by
  refine ⟨rfl, ?_⟩
  obtain ⟨-, hcur, hdir, -, -, -⟩ := main_update_lookups env r fs h
  have hparse : parseReleaseName (newDirName env r) = some (v, r.build) := by
    apply parse_of_match
    refine ⟨PRODPAT, [], by decide, hv, hvc, Or.inl rfl, hb, hbd, ?_⟩
    rw [newDirName, htop]
    simp
  have hrl : readlinkFS ((_main env true fs).2) CURRENT_LINK = some (newDirName env r) := by
    rw [readlinkFS, show normp CURRENT_LINK = curKey from rfl, hcur]
  have hlive : FS.live ((_main env true fs).2) (normp CURRENT_LINK) = true := by
    show FS.live ((_main env true fs).2) curKey = true
    rw [FS.live, hcur]
    show ((_main env true fs).2 (normp (newDirName env r))).isSome = true
    rw [h.hnorm.2, hdir]
    rfl
  rw [get_current_release, hrl]
  show (match parseReleaseName (newDirName env r) with
        | none => Resolved.ret none
        | some vb =>
          if FS.live ((_main env true fs).2) (normp CURRENT_LINK) then
            Resolved.ret (some vb.2)
          else Resolved.crash) = Resolved.ret (some r.build)
  rw [hparse]
  show (if FS.live ((_main env true fs).2) (normp CURRENT_LINK) then
          Resolved.ret (some r.build)
        else Resolved.crash) = Resolved.ret (some r.build)
  rw [if_pos hlive]

theorem C10_witness :
    newDirName wEnv wR = tarTop wEnv.tar ++ '-' :: wR.build ∧
    get_current_release ((_main wEnv true wFS).2) = Resolved.ret (some wR.build) :=
  C10_roundtrip wEnv wR wFS ("0.D".data) (by constructor <;> decide) (by decide)
    (by decide) (by decide) (by decide) (by decide)
